import Mathlib

/-!
Shallow embedding of the command-processor engine of `docker-strongswan`
(`gp_startup/gp_cmdproc.py`, `gp_startup/gp_errors.py`,
`gp_startup/gp_helpers.py`) together with theorems settling the frozen
claims about it.

Python values that can cross the handler boundary are modelled by
`PyValue`; raised exceptions by `PyExn` (discriminated by `ExnType`, since
the dispatcher routes exceptions by exact `type(e)` comparison).  Mutable
Python lists that the dispatcher can alias are held in an explicit `Store`
of cells addressed by `Nat` references; everything else is pure value
passing.  Standard input is the `Stdin` state (a tty flag plus the list of
raw lines `readline` would return).
-/

namespace GpStartup

/-- A generic decidable equality for `Except` results. -/
instance instDecEqExcept {ε α : Type} [DecidableEq ε] [DecidableEq α] :
    DecidableEq (Except ε α) := fun a b =>
  match a, b with
  | Except.ok x, Except.ok y =>
      if h : x = y then Decidable.isTrue (by rw [h])
      else Decidable.isFalse (fun hc => h (Except.ok.inj hc))
  | Except.error x, Except.error y =>
      if h : x = y then Decidable.isTrue (by rw [h])
      else Decidable.isFalse (fun hc => h (Except.error.inj hc))
  | Except.ok _, Except.error _ => Decidable.isFalse (fun hc => Except.noConfusion hc)
  | Except.error _, Except.ok _ => Decidable.isFalse (fun hc => Except.noConfusion hc)

/-! ### Python strings

Python strings are modelled as lists of characters, with structural
re-implementations of the string operations the dispatcher uses
(`strip`, `rstrip`, `lower`, `startswith`, `split`, `join`).  The
case/whitespace tables are the ASCII ones, which cover every string the
program manipulates. -/

/-- A Python string. -/
abbrev PyStr := List Char

/-- Shorthand to write a `PyStr` from a string literal. -/
def S (s : String) : PyStr := s.data

/-- `str.strip()`. -/
def pyStrip (s : PyStr) : PyStr :=
  (((s.dropWhile Char.isWhitespace).reverse).dropWhile Char.isWhitespace).reverse

/-- `str.rstrip()`. -/
def pyRstrip (s : PyStr) : PyStr :=
  ((s.reverse).dropWhile Char.isWhitespace).reverse

/-- `str.lower()`. -/
def pyLower (s : PyStr) : PyStr := s.map Char.toLower

/-- `str.startswith(p)` (the pattern is the first argument). -/
def pyStartsWith : PyStr → PyStr → Bool
  | [], _ => true
  | _ :: _, [] => false
  | c :: p, d :: s => c = d && pyStartsWith p s

/-- `str.split(sep)` for a one-character separator: split at every
occurrence; always returns at least one piece. -/
def pySplitOn (sep : Char) : PyStr → List PyStr
  | [] => [[]]
  | c :: rest =>
      if c = sep then [] :: pySplitOn sep rest
      else
        match pySplitOn sep rest with
        | [] => [[c]]
        | t :: ts => (c :: t) :: ts

/-- `sep.join(pieces)` for a one-character separator. -/
def pyJoinOn (sep : Char) : List PyStr → PyStr
  | [] => []
  | [s] => s
  | s :: rest => s ++ sep :: pyJoinOn sep rest

/-- A Python value as far as the dispatcher can observe it: an integer,
a string, or `None`. -/
inductive PyValue where
  | int (n : Int)
  | str (s : String)
  | nonePV
deriving DecidableEq, Repr

/-- The exact class of a raised exception.  The dispatcher compares
`exception_handler[1] == type(e)`, an exact-type comparison, so the class
is the routing discriminator. -/
inductive ExnType where
  | exitCodeError
  | generalError
  | commandLineArgumentError
  | fileNotFound
  | ioError
  | configurationError
  | runtimeError
  | typeError
  | nameError
  | valueError
  | otherExn (tag : Nat)
deriving DecidableEq, Repr

/-- Mirrors `isinstance(e, ExitCodeError)` over the class hierarchy of
`gp_errors.py`: `ExitCodeError` and its five subclasses. -/
def ExnType.isExitCodeError : ExnType → Bool
  | .exitCodeError => true
  | .generalError => true
  | .commandLineArgumentError => true
  | .fileNotFound => true
  | .ioError => true
  | .configurationError => true
  | _ => false

/-- A raised Python exception: its exact class, the `exitcode` attribute
(meaningful only for `ExitCodeError` subclasses; 0 otherwise) and the
`message` attribute. -/
structure PyExn where
  ty : ExnType
  exitcode : Int
  message : String
deriving DecidableEq, Repr

/-! ### gp_errors.py

The module namespace of `gp_errors.py` binds these integer constants.
Note the source misspells the configuration constant:
`EXIT_CODE_CONFIGURATION_EROR = 5`. -/

def gp_errors_constants : List (String × Int) :=
  [("EXIT_CODE_SUCCESS", 0),
   ("EXIT_CODE_GENERAL_ERROR", 1),
   ("EXIT_CODE_COMMAND_LINE_ARGUMENT_ERROR", 2),
   ("EXIT_CODE_FILE_NOT_FOUND", 3),
   ("EXIT_CODE_IO_ERROR", 4),
   ("EXIT_CODE_CONFIGURATION_EROR", 5)]

/-- Looking a name up in the module namespace; an unbound name raises
`NameError` at use time, as in Python. -/
def lookupConst (name : String) : Except PyExn Int :=
  match gp_errors_constants.lookup name with
  | some v => Except.ok v
  | none => Except.error ⟨ExnType.nameError, 0, "name is not defined: " ++ name⟩

/-- The classes defined in `gp_errors.py` (used for `super(cls, self)`
validity checking). -/
inductive PyClass where
  | exitCodeError
  | generalError
  | commandLineArgumentError
  | fileNotFound
  | ioError
  | configurationError
deriving DecidableEq, Repr

/-- `subclassOf a b` holds when class `a` is `b` or derives from `b`.
In `gp_errors.py` every error class derives directly from
`ExitCodeError` and from nothing else. -/
def subclassOf (a b : PyClass) : Bool :=
  a = b || b = PyClass.exitCodeError

/-- `super(cls, self).__init__(exitcode, message)` as executed by the
subclasses of `ExitCodeError`: Python first checks that the class of
`self` is a subclass of `cls` (raising `TypeError` otherwise) and only
then evaluates the argument expressions, the first of which is a module
constant looked up by name.  `message.format()` with no arguments and no
replacement fields is the identity and is modelled as such. -/
def exitCodeErrorInit (selfClass superArg : PyClass) (codeName : String)
    (resultTy : ExnType) (message : String) : Except PyExn PyExn :=
  if subclassOf selfClass superArg then
    match lookupConst codeName with
    | Except.ok c => Except.ok ⟨resultTy, c, message⟩
    | Except.error e => Except.error e
  else
    Except.error ⟨ExnType.typeError, 0,
      "super(type, obj): obj must be an instance or subtype of type"⟩

/-- `GeneralError(message)` — the source calls
`super(CommandLineArgumentError, self).__init__(EXIT_CODE_GENERAL_ERROR, message)`,
naming the wrong class in `super`. -/
def mkGeneralError (message : String) : Except PyExn PyExn :=
  exitCodeErrorInit PyClass.generalError PyClass.commandLineArgumentError
    "EXIT_CODE_GENERAL_ERROR" ExnType.generalError message

/-- `CommandLineArgumentError(message)` — calls
`super(CommandLineArgumentError, self).__init__(EXIT_CODE_COMMAND_LINE_ARGUMENT_ERROR, message)`. -/
def mkCommandLineArgumentError (message : String) : Except PyExn PyExn :=
  exitCodeErrorInit PyClass.commandLineArgumentError PyClass.commandLineArgumentError
    "EXIT_CODE_COMMAND_LINE_ARGUMENT_ERROR" ExnType.commandLineArgumentError message

/-- `FileNotFoundError(message)` — calls
`super(FileNotFoundError, self).__init__(EXIT_CODE_FILE_NOT_FOUND, message)`. -/
def mkFileNotFoundError (message : String) : Except PyExn PyExn :=
  exitCodeErrorInit PyClass.fileNotFound PyClass.fileNotFound
    "EXIT_CODE_FILE_NOT_FOUND" ExnType.fileNotFound message

/-- `IoError(message)` — calls
`super(IoError, self).__init__(EXIT_CODE_IO_ERROR, message)`. -/
def mkIoError (message : String) : Except PyExn PyExn :=
  exitCodeErrorInit PyClass.ioError PyClass.ioError
    "EXIT_CODE_IO_ERROR" ExnType.ioError message

/-- `ConfigurationError(message)` — calls
`super(ConfigurationError, self).__init__(EXIT_CODE_CONFIGURATION_ERROR, message)`;
the named constant is not bound in the module (it is defined as
`EXIT_CODE_CONFIGURATION_EROR`). -/
def mkConfigurationError (message : String) : Except PyExn PyExn :=
  exitCodeErrorInit PyClass.configurationError PyClass.configurationError
    "EXIT_CODE_CONFIGURATION_ERROR" ExnType.configurationError message

/-! ### Argument definitions (`gp_cmdproc.py` lines 19-79) -/

/-- A positional argument definition: one literal token name. -/
structure PositionalArgument where
  name : PyStr
deriving DecidableEq, Repr

/-- A named argument definition (fields as stored by the parameterized
constructor of `NamedArgument`). -/
structure NamedArgument where
  name : PyStr
  from_stdin : Bool
  min_occurrence : Int
  max_occurrence : Int
deriving DecidableEq, Repr

/-- The parameterized constructor of `NamedArgument` restricted to
well-typed arguments (the `type(...) is ...` checks of lines 65-68 cannot
fire then): raises `ValueError` when `min_occurrence > max_occurrence` or
when `from_stdin` is set and `max_occurrence > 1`; otherwise stores the
four fields unchanged. -/
def NamedArgument.make (name : PyStr) (from_stdin : Bool)
    (min_occurrence max_occurrence : Int) : Except PyExn NamedArgument :=
  if min_occurrence > max_occurrence then
    Except.error ⟨ExnType.valueError, 0,
      "Maximum number of arguments must not exceed the minimum number."⟩
  else if from_stdin = true ∧ max_occurrence > 1 then
    Except.error ⟨ExnType.valueError, 0,
      "The argument must occur only once, if it should be read from stdin as well."⟩
  else
    Except.ok ⟨name, from_stdin, min_occurrence, max_occurrence⟩

/-! ### Standard input (`gp_helpers.py` lines 36-48) -/

/-- The observable state of standard input: whether it is an interactive
terminal, and the raw lines successive `readline()` calls would return
(each as returned by Python, i.e. normally ending in a newline; an
exhausted list models EOF, where `readline()` returns an empty string). -/
structure Stdin where
  tty : Bool
  lines : List PyStr
deriving DecidableEq, Repr

/-- `readline_if_no_tty()`: when stdin is not a tty, read one line; a
non-empty line is returned right-stripped, an empty read (EOF) yields
`None`.  When stdin is a tty nothing is read and `None` is returned. -/
def readline_if_no_tty (sd : Stdin) : Option PyStr × Stdin :=
  if sd.tty = false then
    match sd.lines with
    | l :: rest =>
        if l.length > 0 then (some (pyRstrip l), ⟨sd.tty, rest⟩)
        else (none, ⟨sd.tty, rest⟩)
    | [] => (none, sd)
  else (none, sd)

/-! ### The store of mutable named-definition lists

`add_handler` stores each registration's named-definition list as a
Python list object; `process` takes a copy of it (`[:]`) for its
occurrence bookkeeping.  Cells addressed by `Nat` references make the
copy-versus-alias distinction explicit. -/

/-- A heap of named-definition list cells. -/
structure Store where
  cells : List (List NamedArgument)
deriving DecidableEq, Repr

/-- Read the list object behind a reference. -/
def Store.get (st : Store) (r : Nat) : List NamedArgument :=
  st.cells.getD r []

/-- Allocate a fresh list object, returning its reference. -/
def Store.alloc (st : Store) (v : List NamedArgument) : Nat × Store :=
  (st.cells.length, ⟨st.cells ++ [v]⟩)

/-- Overwrite the list object behind a reference. -/
def Store.setCell (st : Store) (r : Nat) (v : List NamedArgument) : Store :=
  ⟨st.cells.set r v⟩

/-- `list.remove(d)`: drop the first element equal to `d`. -/
def removeFirst (d : NamedArgument) : List NamedArgument → List NamedArgument
  | [] => []
  | x :: rest => if x = d then rest else x :: removeFirst d rest

/-- `if arg_def in not_specified_named_arguments: not_specified_named_arguments.remove(arg_def)`
executed on the cell behind `copyRef`. -/
def removeFromCopy (st : Store) (copyRef : Nat) (d : NamedArgument) : Store :=
  if d ∈ st.get copyRef then st.setCell copyRef (removeFirst d (st.get copyRef))
  else st

/-! ### Registry (`gp_cmdproc.py` lines 87-148) -/

/-- Outcome of calling a Python function: a returned value or a raised
exception. -/
inductive HandlerOutcome where
  | ret (v : PyValue)
  | raise (e : PyExn)

/-- A command line handler: receives the positional tokens and the
effective named arguments. -/
def Handler := List PyStr → List (PyStr × List PyStr) → HandlerOutcome

/-- An exception handler registered with `add_exception_handler`. -/
def RouteHandler := PyExn → HandlerOutcome

/-- One entry of `__cmdline_handlers`: the handler, its positional
definitions, and a reference to its named-definition list object. -/
structure Registration where
  handler : Handler
  pos_args : List PositionalArgument
  namedRef : Nat

/-- Fallback registration for out-of-range indexing (never reached: the
best-fit index is always in range). -/
def defaultReg : Registration :=
  ⟨fun _ _ => HandlerOutcome.ret PyValue.nonePV, [], 0⟩

/-- The state a `CommandProcessor` owns: its registration list and its
exception-route list (`__cmdline_handlers`, `__exception_handlers`). -/
structure CommandProcessor where
  cmdline_handlers : List Registration
  exception_handlers : List (ExnType × RouteHandler)

/-- An element of the `*args` of `add_handler`: a positional definition,
a named definition, or a value of any other type. -/
inductive ArgDef where
  | pos (a : PositionalArgument)
  | named (a : NamedArgument)
  | other (v : PyValue)

/-- Whether an `ArgDef` is the ill-typed case. -/
def ArgDef.isOther : ArgDef → Bool
  | .other _ => true
  | _ => false

/-- The partition loop of `add_handler` (lines 126-131): positional and
named definitions are collected in their relative order; any other
element raises `TypeError`. -/
def partitionArgs : List ArgDef → Except PyExn (List PositionalArgument × List NamedArgument)
  | [] => Except.ok ([], [])
  | ArgDef.pos a :: rest =>
      match partitionArgs rest with
      | Except.ok (ps, ns) => Except.ok (a :: ps, ns)
      | Except.error e => Except.error e
  | ArgDef.named a :: rest =>
      match partitionArgs rest with
      | Except.ok (ps, ns) => Except.ok (ps, a :: ns)
      | Except.error e => Except.error e
  | ArgDef.other _ :: _ =>
      Except.error ⟨ExnType.typeError, 0,
        "Only PositionalArgument and NamedArgument objects are expected."⟩

/-- `add_handler(handler, *args)`: partition the definitions and append
the new registration (allocating its named-definition list object). -/
def add_handler (p : CommandProcessor) (st : Store) (handler : Handler)
    (args : List ArgDef) : Except PyExn (CommandProcessor × Store) :=
  match partitionArgs args with
  | Except.error e => Except.error e
  | Except.ok (ps, ns) =>
      let (r, st') := st.alloc ns
      Except.ok (⟨p.cmdline_handlers ++ [⟨handler, ps, r⟩], p.exception_handlers⟩, st')

/-- `add_exception_handler(handler, exception_type)`: unconditional
append. -/
def add_exception_handler (p : CommandProcessor) (handler : RouteHandler)
    (ty : ExnType) : CommandProcessor :=
  ⟨p.cmdline_handlers, p.exception_handlers ++ [(ty, handler)]⟩

/-! ### Dispatch — tokenization (`process`, lines 175-194) -/

/-- The result of splitting the invocation into positional tokens and the
insertion-ordered mapping from named keys to their value sequences. -/
structure Tokenized where
  positional : List PyStr
  named : List (PyStr × List PyStr)
deriving DecidableEq, Repr

/-- `specified_named_arguments[key].append(value)` with the
create-if-absent guard, on an insertion-ordered mapping. -/
def addNamed (m : List (PyStr × List PyStr)) (k v : PyStr) :
    List (PyStr × List PyStr) :=
  match m with
  | [] => [(k, [v])]
  | (k0, vs) :: rest =>
      if k0 = k then (k0, vs ++ [v]) :: rest else (k0, vs) :: addNamed rest k v

/-- `effective_named_arguments[name] = values`: replace in place when the
key exists, append otherwise. -/
def setNamed (m : List (PyStr × List PyStr)) (k : PyStr) (vs : List PyStr) :
    List (PyStr × List PyStr) :=
  match m with
  | [] => [(k, vs)]
  | (k0, vs0) :: rest =>
      if k0 = k then (k0, vs) :: rest else (k0, vs0) :: setNamed rest k vs

/-- `key in dict` / `dict[key]` on the insertion-ordered mapping. -/
def lookupNamed (m : List (PyStr × List PyStr)) (k : PyStr) :
    Option (List PyStr) :=
  match m with
  | [] => none
  | (k0, vs) :: rest => if k0 = k then some vs else lookupNamed rest k

/-- A token whose trimmed form starts with `--` and whose key is empty
after stripping the marker, splitting at `=`, lowercasing and trimming —
the fatal-parse-error case of tokenization. -/
def isBadToken (a : PyStr) : Bool :=
  pyStartsWith (S "--") (pyStrip a) &&
    (pyStrip (pyLower ((pySplitOn '=' ((pyStrip a).drop 2)).headD [])) = [])

/-- The tokenization loop: each argument is trimmed; `--`-prefixed tokens
are split at the first level into key (lowercased, trimmed) and the
`=`-joined remainder; an empty key aborts the whole call with exit code 2;
other tokens are appended to the positional sequence. -/
def tokenizeAux : List PyStr → List PyStr → List (PyStr × List PyStr) →
    Except Int Tokenized
  | [], pos, named => Except.ok ⟨pos, named⟩
  | a :: rest, pos, named =>
      let arg := pyStrip a
      if pyStartsWith (S "--") arg then
        let arg2 := arg.drop 2
        let toks := pySplitOn '=' arg2
        let key := pyStrip (pyLower (toks.headD []))
        if key.length > 0 then
          tokenizeAux rest pos (addNamed named key (pyJoinOn '=' toks.tail))
        else Except.error 2
      else tokenizeAux rest (pos ++ [arg]) named

/-- Tokenize an invocation (lines 177-194). -/
def tokenize (args : List PyStr) : Except Int Tokenized :=
  tokenizeAux args [] []

/-! ### Dispatch — best-fit selection (lines 199-218) -/

/-- The matching loop of lines 210-213: the length of the longest prefix
on which the registration's positional names equal the raw invocation
tokens case-insensitively (note: the raw `args`, not the trimmed
positional tokens — a quirk of the source preserved here). -/
def matchCount : List PositionalArgument → List PyStr → Nat
  | [], _ => 0
  | _ :: _, [] => 0
  | pa :: ps, a :: rest =>
      if pyLower a = pyLower pa.name then matchCount ps rest + 1 else 0

/-- `match_count > best_fit_count`, with `none` standing for the initial
`best_fit_count = -1`. -/
def beatsBest (mc : Nat) : Option (Nat × Nat) → Bool
  | none => true
  | some (_, bc) => mc > bc

/-- The selection loop: `best` carries `(best_fit_index, best_fit_count)`
(`none` standing for the initial values of -1); a registration is skipped when
it needs more positional arguments than were supplied, and becomes the
best fit when it fully matches with a strictly larger count. -/
def bestFitAux (args : List PyStr) (nPos : Nat) :
    List Registration → Nat → Option (Nat × Nat) → Option (Nat × Nat)
  | [], _, best => best
  | reg :: rest, idx, best =>
      if reg.pos_args.length > nPos then bestFitAux args nPos rest (idx + 1) best
      else
        let mc := matchCount reg.pos_args args
        if mc = reg.pos_args.length ∧ beatsBest mc best = true then
          bestFitAux args nPos rest (idx + 1) (some (idx, mc))
        else bestFitAux args nPos rest (idx + 1) best

/-- The index of the best-fitting registration, if any. -/
def bestFit (hs : List Registration) (args : List PyStr) (nPos : Nat) :
    Option Nat :=
  (bestFitAux args nPos hs 0 none).map Prod.fst

/-! ### Dispatch — named-argument validation (lines 230-261) -/

/-- The lookup loop of lines 236-242: the first definition whose stored
`name` equals the (re-)lowercased supplied key.  Note the source compares
`arg_name.lower() == x.name`, i.e. the stored name is used verbatim. -/
def findArgDef (arg_name : PyStr) : List NamedArgument → Option NamedArgument
  | [] => none
  | x :: rest => if pyLower arg_name = x.name then some x else findArgDef arg_name rest

/-- The validation loop over the supplied named arguments: an unknown key
or an occurrence count outside the definition's bounds yields exit code 2;
a matched definition is removed from the not-yet-satisfied copy. -/
def validateNamed (namedRef copyRef : Nat) :
    List (PyStr × List PyStr) → Store → Store × Option Int
  | [], st => (st, none)
  | (arg_name, arg_values) :: rest, st =>
      match findArgDef arg_name (st.get namedRef) with
      | none => (st, some 2)
      | some d =>
          let st' := removeFromCopy st copyRef d
          if (arg_values.length : Int) < d.min_occurrence then (st', some 2)
          else if (arg_values.length : Int) > d.max_occurrence then (st', some 2)
          else validateNamed namedRef copyRef rest st'

/-! ### Dispatch — effective value assembly (lines 263-299) -/

/-- The assembly loop over the registration's named definitions: a
stdin-eligible definition first attempts `readline_if_no_tty()`; a
successful read, or running on an interactive terminal, removes the
definition from the not-yet-satisfied copy; command-line values take
precedence, the stdin line being used only when none were supplied. -/
def craftEffective (copyRef : Nat) (specified : List (PyStr × List PyStr)) :
    List NamedArgument → Store → Stdin → List (PyStr × List PyStr) →
    Store × Stdin × List (PyStr × List PyStr)
  | [], st, sd, eff => (st, sd, eff)
  | d :: rest, st, sd, eff =>
      let step :=
        if d.from_stdin = true ∧ d.max_occurrence = 1 then
          match readline_if_no_tty sd with
          | (some s, sd') => (some s, sd', removeFromCopy st copyRef d)
          | (none, sd') =>
              if sd'.tty then (none, sd', removeFromCopy st copyRef d)
              else (none, sd', st)
        else (none, sd, st)
      let vals :=
        match lookupNamed specified d.name with
        | some vs => vs
        | none => []
      let vals :=
        if vals.length = 0 ∧ step.1.isSome then [step.1.getD []] else vals
      craftEffective copyRef specified rest step.2.2 step.2.1 (setNamed eff d.name vals)

/-! ### Dispatch — handler invocation and exception routing (lines 310-328) -/

/-- The exception raised when a handler returns a non-integer
(line 313). -/
def contractViolationExn : PyExn :=
  ⟨ExnType.runtimeError, 0, "The command line handler did not return an exit code."⟩

/-- The `except` block (lines 316-328): the exception is offered to the
registered routes in order under exact-type comparison; failing that, an
`ExitCodeError` instance yields its attached exit code; anything else
re-raises.  The second component records which route (by index) consumed
which exception. -/
def routeExc : List (ExnType × RouteHandler) → PyExn → Nat →
    Except PyExn PyValue × List (Nat × PyExn)
  | [], e, _ =>
      (if e.ty.isExitCodeError then Except.ok (PyValue.int e.exitcode)
       else Except.error e, [])
  | (ty, h) :: rest, e, i =>
      if ty = e.ty then
        (match h e with
         | HandlerOutcome.ret v => Except.ok v
         | HandlerOutcome.raise e2 => Except.error e2, [(i, e)])
      else routeExc rest e (i + 1)

/-- Lines 312-314 plus the `except` block: invoke the handler, require an
integer return (raising `RuntimeError` otherwise inside the same `try`),
and route any raised exception. -/
def runHandler (h : Handler) (pos : List PyStr)
    (eff : List (PyStr × List PyStr))
    (routes : List (ExnType × RouteHandler)) :
    Except PyExn PyValue × List (Nat × PyExn) :=
  match h pos eff with
  | HandlerOutcome.ret v =>
      match v with
      | PyValue.int n => (Except.ok (PyValue.int n), [])
      | _ => routeExc routes contractViolationExn 0
  | HandlerOutcome.raise e => routeExc routes e 0

/-! ### Dispatch — `process` (lines 154-333) -/

/-- Everything `process` produces: its result (a returned value — an exit
code or `None` for "not handled" — or an uncaught exception), the final
store and stdin states, the trace of handler invocations (the argument
pair passed), and the trace of exception-route invocations. -/
structure ProcOut where
  result : Except PyExn PyValue
  store : Store
  stdin : Stdin
  calls : List (List PyStr × List (PyStr × List PyStr))
  routed : List (Nat × PyExn)

/-- The body of `process` from the point a registration has been
selected (lines 225-328): copy the registration's named-definition list,
validate the supplied named arguments, assemble effective values, check
required arguments, invoke the handler and route failures. -/
def dispatchSelected (reg : Registration) (routes : List (ExnType × RouteHandler))
    (tok : Tokenized) (st : Store) (sd : Stdin) : ProcOut :=
  let alloc := st.alloc (st.get reg.namedRef)
  let copyRef := alloc.1
  let st1 := alloc.2
  match validateNamed reg.namedRef copyRef tok.named st1 with
  | (st2, some code) => ⟨Except.ok (PyValue.int code), st2, sd, [], []⟩
  | (st2, none) =>
      let crafted :=
        craftEffective copyRef tok.named (st2.get reg.namedRef) st2 sd []
      let st3 := crafted.1
      let sd3 := crafted.2.1
      let eff := crafted.2.2
      if (st3.get copyRef).any (fun d => decide (0 < d.min_occurrence)) then
        ⟨Except.ok (PyValue.int 2), st3, sd3, [], []⟩
      else
        let run := runHandler reg.handler tok.positional eff routes
        ⟨run.1, st3, sd3, [(tok.positional, eff)], run.2⟩

/-- `CommandProcessor.process(args)`: tokenize, select the best-fitting
registration, and dispatch to it; a tokenization error yields exit
code 2, no selected registration yields `None`. -/
def process (p : CommandProcessor) (st : Store) (sd : Stdin)
    (args : List PyStr) : ProcOut :=
  match tokenize args with
  | Except.error code => ⟨Except.ok (PyValue.int code), st, sd, [], []⟩
  | Except.ok tok =>
      match bestFit p.cmdline_handlers args tok.positional.length with
      | none => ⟨Except.ok PyValue.nonePV, st, sd, [], []⟩
      | some idx =>
          dispatchSelected (p.cmdline_handlers.getD idx defaultReg)
            p.exception_handlers tok st sd

/-! ### Fixtures for concrete theorems -/

/-- A handler that returns the integer exit code `n`. -/
def retIntHandler (n : Int) : Handler := fun _ _ => HandlerOutcome.ret (PyValue.int n)

/-- A handler that returns a string — a contract violation. -/
def badHandler : Handler := fun _ _ => HandlerOutcome.ret (PyValue.str "oops")

/-- An exception route handler returning exit code 42. -/
def route42 : RouteHandler := fun _ => HandlerOutcome.ret (PyValue.int 42)

/-- An exception route handler returning exit code 5. -/
def route5 : RouteHandler := fun _ => HandlerOutcome.ret (PyValue.int 5)

/-- A required named argument `key` that may be satisfied from stdin. -/
def stdinReqArg : NamedArgument := ⟨S "key", true, 1, 1⟩

/-- A processor with one registration: no positional arguments, named
definitions behind reference 0, handler returning `n`. -/
def procOneNamed (n : Int) : CommandProcessor := ⟨[⟨retIntHandler n, [], 0⟩], []⟩

/-- The store holding `[stdinReqArg]` in cell 0. -/
def storeStdinReq : Store := ⟨[[stdinReqArg]]⟩

/-- A processor with one registration that violates the handler contract,
and the given exception routes. -/
def procBad (routes : List (ExnType × RouteHandler)) : CommandProcessor :=
  ⟨[⟨badHandler, [], 0⟩], routes⟩

/-- A named definition whose stored name is capitalized. -/
def argNameUpper : NamedArgument := ⟨S "Name", false, 0, 1⟩

/-- A named definition whose stored name is lowercase. -/
def argNameLower : NamedArgument := ⟨S "name", false, 0, 1⟩

/-- A named definition used twice to form duplicate names. -/
def dupX : NamedArgument := ⟨S "x", false, 0, 1⟩

/-- Whether an `Except` is a success. -/
def exceptIsOk {ε α : Type} : Except ε α → Bool
  | Except.ok _ => true
  | Except.error _ => false

/-! ### C2 — terminal-mode handling of a required stdin argument -/

/-- C2 counterexample: with a registration owning the named definition
`key` (`allow_stdin`, `min_occurrences = 1`, `max_occurrences = 1`),
`key` absent from the command line, and stdin an interactive terminal,
`process` does NOT fail with exit code 2: the handler is invoked (with an
empty effective value list) and its exit code 7 is returned. -/
theorem claim2_counterexample :
    (process (procOneNamed 7) storeStdinReq ⟨true, []⟩ []).result = Except.ok (PyValue.int 7) ∧
    (process (procOneNamed 7) storeStdinReq ⟨true, []⟩ []).result ≠ Except.ok (PyValue.int 2) ∧
    (process (procOneNamed 7) storeStdinReq ⟨true, []⟩ []).calls = [([], [(S "key", [])])] := by
  refine ⟨rfl, ?_, rfl⟩
  decide

/-- C2 (amended): when a named argument with `allow_stdin = true`,
`min_occurrences = 1`, `max_occurrences = 1` is absent from the command
line and standard input is an interactive terminal, the argument is
treated as satisfied (removed from the not-yet-satisfied copy), so the
required-argument check does not fire: `process` invokes the handler
with an empty effective value list for that argument and returns the
handler's exit code. -/
theorem claim2_terminal_mode_satisfied (n : Int) :
    (process (procOneNamed n) storeStdinReq ⟨true, []⟩ []).result = Except.ok (PyValue.int n) ∧
    (process (procOneNamed n) storeStdinReq ⟨true, []⟩ []).calls = [([], [(S "key", [])])] ∧
    (process (procOneNamed n) storeStdinReq ⟨true, []⟩ []).store.get 1 = [] :=
  ⟨rfl, rfl, rfl⟩

/-- C2 witness: the amended behaviour at the concrete exit code 9. -/
theorem claim2_witness :
    (process (procOneNamed 9) storeStdinReq ⟨true, []⟩ []).result = Except.ok (PyValue.int 9) :=
  (claim2_terminal_mode_satisfied 9).1

/-! ### C3 — exit codes of the built-in error kinds -/

/-- C3: constructing `GeneralError(message)` does not produce an error
object carrying exit code 1 — `super(CommandLineArgumentError, self)`
raises `TypeError` because a `GeneralError` instance is not an instance
of `CommandLineArgumentError`; constructing `ConfigurationError(message)`
raises `NameError` because the referenced constant
`EXIT_CODE_CONFIGURATION_ERROR` is not bound (the module misspells it
`EXIT_CODE_CONFIGURATION_EROR`).  The analogous constructor that names
its own class, `CommandLineArgumentError`, works and attaches exit
code 2, showing the intended pattern. -/
theorem claim3_error_ctor_bug (m : String) :
    mkGeneralError m = Except.error ⟨ExnType.typeError, 0,
      "super(type, obj): obj must be an instance or subtype of type"⟩ ∧
    mkConfigurationError m = Except.error ⟨ExnType.nameError, 0,
      "name is not defined: EXIT_CODE_CONFIGURATION_ERROR"⟩ ∧
    mkCommandLineArgumentError m = Except.ok ⟨ExnType.commandLineArgumentError, 2, m⟩ :=
  ⟨rfl, rfl, rfl⟩

/-! ### C4 — add_handler validation -/

/-- `partitionArgs` fails exactly when some element is neither a
`PositionalArgument` nor a `NamedArgument`. -/
theorem partitionArgs_error_iff (args : List ArgDef) :
    (∃ e, partitionArgs args = Except.error e) ↔ ∃ a ∈ args, a.isOther = true := by
  induction args with
  | nil => simp [partitionArgs]
  | cons a rest ih =>
      cases a with
      | pos b =>
          simp only [partitionArgs]
          constructor
          · intro ⟨e, he⟩
            rcases hr : partitionArgs rest with e' | ⟨ps, ns⟩
            · rcases ih.mp ⟨e', hr⟩ with ⟨x, hx, hox⟩
              exact ⟨x, List.mem_cons_of_mem _ hx, hox⟩
            · rw [hr] at he; exact absurd he (by simp)
          · intro ⟨x, hx, hox⟩
            rcases List.mem_cons.mp hx with h | h
            · rw [h] at hox; exact absurd hox (by simp [ArgDef.isOther])
            · rcases ih.mpr ⟨x, h, hox⟩ with ⟨e, he⟩
              exact ⟨e, by rw [he]⟩
      | named b =>
          simp only [partitionArgs]
          constructor
          · intro ⟨e, he⟩
            rcases hr : partitionArgs rest with e' | ⟨ps, ns⟩
            · rcases ih.mp ⟨e', hr⟩ with ⟨x, hx, hox⟩
              exact ⟨x, List.mem_cons_of_mem _ hx, hox⟩
            · rw [hr] at he; exact absurd he (by simp)
          · intro ⟨x, hx, hox⟩
            rcases List.mem_cons.mp hx with h | h
            · rw [h] at hox; exact absurd hox (by simp [ArgDef.isOther])
            · rcases ih.mpr ⟨x, h, hox⟩ with ⟨e, he⟩
              exact ⟨e, by rw [he]⟩
      | other v =>
          simp [partitionArgs, ArgDef.isOther]

/-- C4 counterexample: registering two named arguments that share the
(case-insensitive) name `x` succeeds — `add_handler` performs no
duplicate-name check. -/
theorem claim4_counterexample :
    exceptIsOk (add_handler ⟨[], []⟩ ⟨[]⟩ (retIntHandler 1)
      [ArgDef.named dupX, ArgDef.named dupX]) = true := rfl

/-- C4 (amended): `add_handler` fails (with the registration-time
definition error) exactly when some element of the argument-definition
list is neither a `PositionalArgument` nor a `NamedArgument`; duplicate
named-argument names are not detected, and on success the registration is
appended with the definitions partitioned in order (the named list stored
in a fresh cell). -/
theorem claim4_add_handler_validation (p : CommandProcessor) (st : Store)
    (h : Handler) (args : List ArgDef) :
    ((∃ e, add_handler p st h args = Except.error e) ↔ ∃ a ∈ args, a.isOther = true) ∧
    (∀ ps ns, partitionArgs args = Except.ok (ps, ns) →
       add_handler p st h args = Except.ok
         (⟨p.cmdline_handlers ++ [⟨h, ps, st.cells.length⟩], p.exception_handlers⟩,
          ⟨st.cells ++ [ns]⟩)) := by
  constructor
  · rw [← partitionArgs_error_iff]
    constructor
    · intro ⟨e, he⟩
      rcases hr : partitionArgs args with e' | ⟨ps, ns⟩
      · exact ⟨e', rfl⟩
      · rw [add_handler, hr] at he; exact absurd he (by simp [Store.alloc])
    · intro ⟨e, he⟩
      exact ⟨e, by rw [add_handler, he]⟩
  · intro ps ns hr
    rw [add_handler, hr]
    rfl

/-- C4 witness: the duplicate-name registration from the counterexample
is appended with both copies of the definition in its named list. -/
theorem claim4_witness :
    add_handler ⟨[], []⟩ ⟨[]⟩ (retIntHandler 1) [ArgDef.named dupX, ArgDef.named dupX] =
      Except.ok (⟨[⟨retIntHandler 1, [], 0⟩], []⟩, ⟨[[dupX, dupX]]⟩) :=
  (claim4_add_handler_validation ⟨[], []⟩ ⟨[]⟩ (retIntHandler 1)
    [ArgDef.named dupX, ArgDef.named dupX]).2 [] [dupX, dupX] rfl

/-! ### C5 — named-argument key matching -/

/-- C5 counterexample: a supplied `--NAME=v` does not match a definition
whose stored name is `Name` — `process` returns exit code 2 ("named
argument not allowed") and never invokes the handler, although the claim
predicts a case-insensitive match. -/
theorem claim5_counterexample :
    (process (procOneNamed 7) ⟨[[argNameUpper]]⟩ ⟨true, []⟩ [S "--NAME=v"]).result =
      Except.ok (PyValue.int 2) ∧
    (process (procOneNamed 7) ⟨[[argNameUpper]]⟩ ⟨true, []⟩ [S "--NAME=v"]).calls = [] := by
  exact ⟨rfl, rfl⟩

/-- C5 (amended): the supplied key is lowercased during tokenization and
compared verbatim against each definition's stored `name`
(`arg_name.lower() == x.name`): a definition is matched exactly when its
stored name equals the lowercased key, so matching is case-insensitive in
the supplied spelling but case-sensitive in the stored name — `--NAME`
matches a definition named `name` (third conjunct: the handler receives
its value) but, per the counterexample, not one named `Name`; an
unmatched key makes `process` fail with exit code 2. -/
theorem claim5_lowered_key_matching (k : PyStr) (ds : List NamedArgument) :
    (∀ d, findArgDef k ds = some d → pyLower k = d.name ∧ d ∈ ds) ∧
    (findArgDef k ds = none ↔ ∀ d ∈ ds, pyLower k ≠ d.name) ∧
    (process (procOneNamed 7) ⟨[[argNameLower]]⟩ ⟨true, []⟩ [S "--NAME=v"]).calls =
      [([], [(S "name", [S "v"])])] := by
  refine ⟨?_, ?_, rfl⟩
  · induction ds with
    | nil => intro d hd; exact absurd hd (by simp [findArgDef])
    | cons x rest ih =>
        intro d hd
        rw [findArgDef] at hd
        by_cases hx : pyLower k = x.name
        · rw [if_pos hx] at hd
          cases hd
          exact ⟨hx, List.mem_cons_self x rest⟩
        · rw [if_neg hx] at hd
          rcases ih d hd with ⟨h1, h2⟩
          exact ⟨h1, List.mem_cons_of_mem _ h2⟩
  · induction ds with
    | nil => simp [findArgDef]
    | cons x rest ih =>
        rw [findArgDef]
        by_cases hx : pyLower k = x.name
        · rw [if_pos hx]
          simp only [List.mem_cons]
          constructor
          · intro hc; exact absurd hc (by simp)
          · intro hall
            exact absurd hx (hall x (Or.inl rfl))
        · rw [if_neg hx]
          rw [ih]
          constructor
          · intro hall d hd
            rcases List.mem_cons.mp hd with h | h
            · rw [h]; exact hx
            · exact hall d h
          · intro hall d hd
            exact hall d (List.mem_cons_of_mem _ hd)

/-- C5 witness: the characterization applied to the supplied key `NAME`
and the lowercase definition. -/
theorem claim5_witness : pyLower (S "NAME") = argNameLower.name ∧ argNameLower ∈ [argNameLower] :=
  (claim5_lowered_key_matching (S "NAME") [argNameLower]).1 argNameLower (by decide)

/-! ### C6 — handler contract violation and exception routing -/

/-- C6 counterexample: a handler that returns a string, on a processor
with an exception route registered for `RuntimeError`, does not surface
the violation — the route consumes it and its return value 42 becomes
the result of `process`. -/
theorem claim6_counterexample :
    (process (procBad [(ExnType.runtimeError, route42)]) ⟨[[]]⟩ ⟨true, []⟩ []).result =
      Except.ok (PyValue.int 42) ∧
    (process (procBad [(ExnType.runtimeError, route42)]) ⟨[[]]⟩ ⟨true, []⟩ []).routed =
      [(0, contractViolationExn)] :=
  ⟨rfl, rfl⟩

/-- C6 (amended): a handler returning a non-integer raises a
`RuntimeError` inside the same `try` block as the handler call, so it is
offered to the exception routes like any handler-raised exception: when
no route is registered for `RuntimeError` it propagates to the caller
uncaught, and is never converted to an exit code (a `RuntimeError` is not
exit-code-bearing); but a route registered exactly for `RuntimeError`
consumes it (counterexample above).  Concretely, on a processor whose
selected handler violates the contract and with no registered routes,
`process` raises the violation. -/
theorem claim6_contract_violation_routing :
    (∀ (routes : List (ExnType × RouteHandler)) (e : PyExn) (i : Nat),
        (∀ r ∈ routes, r.1 ≠ ExnType.runtimeError) → e.ty = ExnType.runtimeError →
        routeExc routes e i = (Except.error e, [])) ∧
    (process (procBad []) ⟨[[]]⟩ ⟨true, []⟩ []).result = Except.error contractViolationExn := by
  constructor
  · intro routes
    induction routes with
    | nil =>
        intro e i _ hty
        rw [routeExc, hty]
        rfl
    | cons r rest ih =>
        intro e i hall hty
        rw [routeExc]
        rw [if_neg]
        · exact ih e (i + 1) (fun r' hr' => hall r' (List.mem_cons_of_mem _ hr')) hty
        · rw [hty]
          exact hall r (List.mem_cons_self r rest)
  · rfl

/-- C6 witness: a route registered for a different exception kind does
not consume the contract violation. -/
theorem claim6_witness :
    routeExc [(ExnType.commandLineArgumentError, route5)] contractViolationExn 0 =
      (Except.error contractViolationExn, []) :=
  claim6_contract_violation_routing.1 [(ExnType.commandLineArgumentError, route5)]
    contractViolationExn 0
    (by intro r hr; rw [List.mem_singleton.mp hr]; decide) rfl

/-! ### C8 — NamedArgument constructor validation -/

/-- C8: within well-typed arguments, `NamedArgument` construction fails
(registration-time definition error) exactly when
`min_occurrence > max_occurrence` or `from_stdin` with
`max_occurrence > 1`; otherwise it succeeds, storing the four fields
unchanged and doing nothing else. -/
theorem claim8_named_argument_make (name : PyStr) (fs : Bool) (minO maxO : Int) :
    ((∃ e, NamedArgument.make name fs minO maxO = Except.error e) ↔
      (minO > maxO ∨ (fs = true ∧ maxO > 1))) ∧
    (¬ (minO > maxO ∨ (fs = true ∧ maxO > 1)) →
      NamedArgument.make name fs minO maxO = Except.ok ⟨name, fs, minO, maxO⟩) := by
  constructor
  · constructor
    · intro ⟨e, he⟩
      by_cases h1 : minO > maxO
      · exact Or.inl h1
      by_cases h2 : fs = true ∧ maxO > 1
      · exact Or.inr h2
      · rw [NamedArgument.make, if_neg h1, if_neg h2] at he
        exact absurd he (by simp)
    · intro h
      by_cases h1 : minO > maxO
      · exact ⟨_, by rw [NamedArgument.make, if_pos h1]⟩
      · rcases h with h | h2
        · exact absurd h h1
        · exact ⟨_, by rw [NamedArgument.make, if_neg h1, if_pos h2]⟩
  · intro h
    rw [NamedArgument.make, if_neg (fun h1 => h (Or.inl h1)),
      if_neg (fun h2 => h (Or.inr h2))]

/-- C8 witness: the spec's example `NamedArgument("x", allow_stdin=true,
max_occurrences=2)` fails at construction. -/
theorem claim8_witness :
    ∃ e, NamedArgument.make (S "x") true 0 2 = Except.error e :=
  (claim8_named_argument_make (S "x") true 0 2).1.mpr (Or.inr ⟨rfl, by decide⟩)

/-! ### C7 — stdin fallback with command-line precedence -/

/-- C7: for the registration owning the stdin-eligible definition `key`
(`allow_stdin = true`, `max_occurrences = 1`): when `key` is absent from
the command line and non-terminal stdin yields the (already
right-stripped, non-empty) line `L`, the handler receives effective value
`[L]` and its exit code is returned; when `--key=cli` is supplied on the
command line, the handler receives effective value `["cli"]` whatever
stdin holds (a pending line or end of file) — the command line takes
precedence and the stdin line is not used. -/
theorem claim7_stdin_fallback (L : PyStr) (n : Int) (hL : 0 < L.length)
    (hTrim : pyRstrip L = L) :
    ((process (procOneNamed n) storeStdinReq ⟨false, [L]⟩ []).calls =
        [([], [(S "key", [L])])] ∧
     (process (procOneNamed n) storeStdinReq ⟨false, [L]⟩ []).result =
        Except.ok (PyValue.int n)) ∧
    ((process (procOneNamed n) storeStdinReq ⟨false, [S "zzz"]⟩ [S "--key=cli"]).calls =
        [([], [(S "key", [S "cli"])])] ∧
     (process (procOneNamed n) storeStdinReq ⟨false, []⟩ [S "--key=cli"]).calls =
        [([], [(S "key", [S "cli"])])] ∧
     (process (procOneNamed n) storeStdinReq ⟨false, [S "zzz"]⟩ [S "--key=cli"]).result =
        Except.ok (PyValue.int n)) := by
  refine ⟨?_, rfl, rfl, rfl⟩
  have hr : readline_if_no_tty ⟨false, [L]⟩ = (some L, ⟨false, []⟩) := by
    simp [readline_if_no_tty, hL, hTrim]
  have hc : craftEffective 1 [] [stdinReqArg] ⟨[[stdinReqArg], [stdinReqArg]]⟩
      ⟨false, [L]⟩ [] = (⟨[[stdinReqArg], []]⟩, ⟨false, []⟩, [(S "key", [L])]) := by
    simp only [craftEffective, hr]
    rfl
  have hp : process (procOneNamed n) storeStdinReq ⟨false, [L]⟩ [] =
      dispatchSelected ⟨retIntHandler n, [], 0⟩ [] ⟨[], []⟩ storeStdinReq ⟨false, [L]⟩ := rfl
  have hd : dispatchSelected ⟨retIntHandler n, [], 0⟩ [] ⟨[], []⟩ storeStdinReq ⟨false, [L]⟩ =
      (let crafted := craftEffective 1 [] [stdinReqArg] ⟨[[stdinReqArg], [stdinReqArg]]⟩
        ⟨false, [L]⟩ [];
       if (crafted.1.get 1).any (fun d => decide (0 < d.min_occurrence)) then
         ⟨Except.ok (PyValue.int 2), crafted.1, crafted.2.1, [], []⟩
       else
         let run := runHandler (retIntHandler n) [] crafted.2.2 [];
         ⟨run.1, crafted.1, crafted.2.1, [([], crafted.2.2)], run.2⟩) := rfl
  rw [hp, hd, hc]
  exact ⟨rfl, rfl⟩

/-- C7 witness: the fallback at the concrete line `abc` and exit code 5,
matching the spec's example. -/
theorem claim7_witness :
    (process (procOneNamed 5) storeStdinReq ⟨false, [S "abc"]⟩ []).calls =
      [([], [(S "key", [S "abc"])])] :=
  ((claim7_stdin_fallback (S "abc") 5 (by decide) (by decide)).1).1

/-! ### C9 — malformed named tokens short-circuit tokenization -/

/-- Tokenization fails with exit code 2 whenever the invocation contains
a token whose key is empty after stripping the `--` marker, regardless of
the accumulators. -/
theorem tokenizeAux_bad_token (args : List PyStr) :
    ∀ (pos : List PyStr) (named : List (PyStr × List PyStr)),
      (∃ a ∈ args, isBadToken a = true) → tokenizeAux args pos named = Except.error 2 := by
  induction args with
  | nil =>
      intro pos named ⟨a, ha, _⟩
      exact absurd ha (List.not_mem_nil a)
  | cons a rest ih =>
      intro pos named ⟨x, hx, hbad⟩
      simp only [tokenizeAux]
      rcases List.mem_cons.mp hx with h | h
      · subst h
        rw [isBadToken] at hbad
        have hb := Bool.and_eq_true_iff.mp hbad
        have h2 : pyStrip (pyLower ((pySplitOn '=' ((pyStrip x).drop 2)).headD [])) = [] :=
          of_decide_eq_true hb.2
        rw [if_pos hb.1, h2]
        simp
      · split_ifs with h1 h2
        · exact ih _ _ ⟨x, h, hbad⟩
        · rfl
        · exact ih _ _ ⟨x, h, hbad⟩

/-- C9: for every registry and state, an invocation containing a token
whose key is empty after stripping the `--` marker (in particular the
invocations `["--"]` and `["--=x"]`) makes `process` return exit code 2
during tokenization: no registration matching happens and no handler is
invoked (the call trace is empty and the store and stdin are untouched,
whatever the registered handlers would do). -/
theorem claim9_malformed_named_token (p : CommandProcessor) (st : Store) (sd : Stdin) :
    (∀ args : List PyStr, (∃ a ∈ args, isBadToken a = true) →
        process p st sd args = ⟨Except.ok (PyValue.int 2), st, sd, [], []⟩) ∧
    process p st sd [S "--"] = ⟨Except.ok (PyValue.int 2), st, sd, [], []⟩ ∧
    process p st sd [S "--=x"] = ⟨Except.ok (PyValue.int 2), st, sd, [], []⟩ := by
  have main : ∀ args : List PyStr, (∃ a ∈ args, isBadToken a = true) →
      process p st sd args = ⟨Except.ok (PyValue.int 2), st, sd, [], []⟩ := by
    intro args h
    rw [process, tokenize, tokenizeAux_bad_token args [] [] h]
  exact ⟨main, main [S "--"] ⟨S "--", by decide, by decide⟩,
         main [S "--=x"] ⟨S "--=x", by decide, by decide⟩⟩

/-- C9 witness: exercised on a registry whose only handler would return 7
and an invocation that puts a well-formed token before the bare `--`. -/
theorem claim9_witness :
    process (procOneNamed 7) storeStdinReq ⟨true, []⟩ [S "run", S "--"] =
      ⟨Except.ok (PyValue.int 2), storeStdinReq, ⟨true, []⟩, [], []⟩ :=
  (claim9_malformed_named_token (procOneNamed 7) storeStdinReq ⟨true, []⟩).1
    [S "run", S "--"] ⟨S "--", by decide, by decide⟩

/-! ### C1 — best-fit selection -/

/-- A registration the selection loop may keep: its positional-argument
count does not exceed the number of supplied positional tokens, and its
positional names fully match the raw invocation prefix. -/
def isCandidate (args : List PyStr) (nPos : Nat) (reg : Registration) : Prop :=
  reg.pos_args.length ≤ nPos ∧ matchCount reg.pos_args args = reg.pos_args.length

/-- The selection-loop invariant: what the running best `(index, count)`
pair says about the already-scanned prefix of the registration list.
`none`: no candidate seen.  `some jc`: the scanned list decomposes around
the current best `regj` at index `jc.1`; `jc.2` is its positional count;
every candidate before it is strictly shorter, every candidate after it
is no longer. -/
def selInv (args : List PyStr) (nPos : Nat) (scanned : List Registration) :
    Option (Nat × Nat) → Prop
  | none => ∀ reg ∈ scanned, ¬ isCandidate args nPos reg
  | some jc =>
      ∃ pre regj post, scanned = pre ++ regj :: post ∧ pre.length = jc.1 ∧
        isCandidate args nPos regj ∧ jc.2 = regj.pos_args.length ∧
        (∀ reg ∈ pre, isCandidate args nPos reg → reg.pos_args.length < jc.2) ∧
        (∀ reg ∈ post, isCandidate args nPos reg → reg.pos_args.length ≤ jc.2)

/-- Scanning one more registration that does not displace the best
preserves the invariant (the new registration is either no candidate or a
candidate no longer than the best). -/
theorem selInv_push (args : List PyStr) (nPos : Nat) (scanned : List Registration)
    (best : Option (Nat × Nat)) (reg : Registration)
    (hinv : selInv args nPos scanned best)
    (hle : isCandidate args nPos reg → ∃ jc, best = some jc ∧ reg.pos_args.length ≤ jc.2) :
    selInv args nPos (scanned ++ [reg]) best := by
  cases best with
  | none =>
      intro r hr
      rcases List.mem_append.mp hr with h | h
      · exact hinv r h
      · rw [List.mem_singleton.mp h]
        intro hc
        rcases hle hc with ⟨jc, hjc, _⟩
        exact Option.noConfusion hjc
  | some jc =>
      obtain ⟨pre, regj, post, hdec, hlen, hcand, hc2, hpre, hpost⟩ := hinv
      refine ⟨pre, regj, post ++ [reg], ?_, hlen, hcand, hc2, hpre, ?_⟩
      · rw [hdec]
        simp
      · intro r hr hc
        rcases List.mem_append.mp hr with h | h
        · exact hpost r h hc
        · rw [List.mem_singleton.mp h] at hc ⊢
          rcases hle hc with ⟨jc', hjc', hle'⟩
          cases Option.some.inj hjc'
          exact hle'

/-- Scanning a candidate that strictly beats the best installs it as the
new best at the next index. -/
theorem selInv_newbest (args : List PyStr) (nPos : Nat) (scanned : List Registration)
    (best : Option (Nat × Nat)) (reg : Registration)
    (hinv : selInv args nPos scanned best)
    (hcand : isCandidate args nPos reg)
    (hgt : ∀ jc, best = some jc → jc.2 < reg.pos_args.length) :
    selInv args nPos (scanned ++ [reg])
      (some (scanned.length, reg.pos_args.length)) := by
  refine ⟨scanned, reg, [], rfl, rfl, hcand, rfl, ?_, by intro r hr; exact absurd hr (List.not_mem_nil r)⟩
  intro r hr hc
  cases best with
  | none => exact absurd hc (hinv r hr)
  | some jc =>
      obtain ⟨pre, regj, post, hdec, hlen, hcandj, hc2, hpre, hpost⟩ := hinv
      have hle : r.pos_args.length ≤ jc.2 := by
        subst hdec
        rcases List.mem_append.mp hr with h | h
        · exact Nat.le_of_lt (hpre r h hc)
        · rcases List.mem_cons.mp h with h | h
          · rw [h, hc2]
          · exact hpost r h hc
      exact Nat.lt_of_le_of_lt hle (hgt jc rfl)

/-- The selection loop establishes the invariant over the whole list. -/
theorem bestFitAux_inv (args : List PyStr) (nPos : Nat) (hs : List Registration) :
    ∀ (scanned : List Registration) (best : Option (Nat × Nat)),
      selInv args nPos scanned best →
      selInv args nPos (scanned ++ hs) (bestFitAux args nPos hs scanned.length best) := by
  induction hs with
  | nil =>
      intro scanned best hinv
      rw [bestFitAux, List.append_nil]
      exact hinv
  | cons reg rest ih =>
      intro scanned best hinv
      rw [bestFitAux]
      have hassoc : scanned ++ reg :: rest = (scanned ++ [reg]) ++ rest := by
        rw [List.append_assoc, List.singleton_append]
      have hlen1 : (scanned ++ [reg]).length = scanned.length + 1 := by
        rw [List.length_append, List.length_singleton]
      by_cases hskip : reg.pos_args.length > nPos
      · rw [if_pos hskip]
        have hinv' : selInv args nPos (scanned ++ [reg]) best :=
          selInv_push args nPos scanned best reg hinv
            (fun hc => absurd hc.1 (Nat.not_le_of_lt hskip))
        have h := ih (scanned ++ [reg]) best hinv'
        rw [hlen1] at h
        rw [hassoc]
        exact h
      · rw [if_neg hskip]
        by_cases hacc : matchCount reg.pos_args args = reg.pos_args.length ∧
            beatsBest (matchCount reg.pos_args args) best = true
        · rw [if_pos hacc]
          have hcand : isCandidate args nPos reg := ⟨Nat.le_of_not_lt hskip, hacc.1⟩
          have hgt : ∀ jc, best = some jc → jc.2 < reg.pos_args.length := by
            intro jc hjc
            have hb := hacc.2
            rw [hjc, beatsBest] at hb
            rw [← hacc.1]
            exact Nat.lt_of_lt_of_le (of_decide_eq_true hb) (Nat.le_refl _)
          have hinv' := selInv_newbest args nPos scanned best reg hinv hcand hgt
          have h := ih (scanned ++ [reg]) (some (scanned.length, reg.pos_args.length)) hinv'
          rw [hlen1] at h
          rw [hassoc, hacc.1]
          exact h
        · rw [if_neg hacc]
          have hle : isCandidate args nPos reg →
              ∃ jc, best = some jc ∧ reg.pos_args.length ≤ jc.2 := by
            intro hc
            cases best with
            | none =>
                exact absurd ⟨hc.2, rfl⟩ hacc
            | some jc =>
                refine ⟨jc, rfl, ?_⟩
                by_cases hgt2 : matchCount reg.pos_args args > jc.2
                · exact absurd ⟨hc.2, by rw [beatsBest]; exact decide_eq_true hgt2⟩ hacc
                · rw [← hc.2]
                  exact Nat.le_of_not_lt hgt2
          have hinv' := selInv_push args nPos scanned best reg hinv hle
          have h := ih (scanned ++ [reg]) best hinv'
          rw [hlen1] at h
          rw [hassoc]
          exact h

/-- C1: for every registry and invocation, among the registrations whose
positional-argument count does not exceed the number of supplied
positional tokens and whose positional names fully match
(`isCandidate`), the selection picks the one with the largest
positional-argument count — every candidate registered before the
selected one is strictly shorter (so ties go to the earliest-registered)
and every candidate after it is no longer; and when no registration is a
candidate, `process` returns `None` (NotHandled) without invoking any
handler and without touching any state. -/
theorem claim1_best_fit_selection (p : CommandProcessor) (st : Store) (sd : Stdin)
    (args : List PyStr) (tok : Tokenized) (htok : tokenize args = Except.ok tok) :
    (∀ j, bestFit p.cmdline_handlers args tok.positional.length = some j →
        ∃ pre regj post, p.cmdline_handlers = pre ++ regj :: post ∧ pre.length = j ∧
          isCandidate args tok.positional.length regj ∧
          (∀ reg ∈ pre, isCandidate args tok.positional.length reg →
              reg.pos_args.length < regj.pos_args.length) ∧
          (∀ reg ∈ post, isCandidate args tok.positional.length reg →
              reg.pos_args.length ≤ regj.pos_args.length)) ∧
    (bestFit p.cmdline_handlers args tok.positional.length = none →
        (∀ reg ∈ p.cmdline_handlers, ¬ isCandidate args tok.positional.length reg) ∧
        process p st sd args = ⟨Except.ok PyValue.nonePV, st, sd, [], []⟩) := by
  have hinv := bestFitAux_inv args tok.positional.length p.cmdline_handlers [] none
    (by intro r hr; exact absurd hr (List.not_mem_nil r))
  rw [List.nil_append, List.length_nil] at hinv
  constructor
  · intro j hj
    rw [bestFit] at hj
    rcases hb : bestFitAux args tok.positional.length p.cmdline_handlers 0 none with _ | jc
    · rw [hb] at hj
      exact absurd hj (by simp)
    · rw [hb] at hj
      rw [hb] at hinv
      obtain ⟨pre, regj, post, hdec, hlen, hcand, hc2, hpre, hpost⟩ := hinv
      rw [hc2] at hpre hpost
      have hj1 : jc.1 = j := by
        simpa using hj
      rw [hj1] at hlen
      exact ⟨pre, regj, post, hdec, hlen, hcand, hpre, hpost⟩
  · intro hn
    have haux : bestFitAux args tok.positional.length p.cmdline_handlers 0 none = none := by
      rw [bestFit] at hn
      exact Option.map_eq_none.mp hn
    rw [haux] at hinv
    refine ⟨hinv, ?_⟩
    rw [process, htok]
    simp [hn]

/-- C1 witness: on a registry whose only registration expects the
positional token `run`, the invocation `zzz` has no candidate and is
not handled. -/
theorem claim1_witness :
    (∀ reg ∈ (⟨[⟨retIntHandler 1, [⟨S "run"⟩], 0⟩], []⟩ : CommandProcessor).cmdline_handlers,
        ¬ isCandidate [S "zzz"] 1 reg) ∧
    process ⟨[⟨retIntHandler 1, [⟨S "run"⟩], 0⟩], []⟩ ⟨[[]]⟩ ⟨true, []⟩ [S "zzz"] =
      ⟨Except.ok PyValue.nonePV, ⟨[[]]⟩, ⟨true, []⟩, [], []⟩ :=
  (claim1_best_fit_selection ⟨[⟨retIntHandler 1, [⟨S "run"⟩], 0⟩], []⟩ ⟨[[]]⟩ ⟨true, []⟩
    [S "zzz"] ⟨[S "zzz"], []⟩ (by decide)).2 (by decide)

/-! ### C10 — registry state is never mutated by dispatch -/

/-- Setting the freshly appended cell leaves the original prefix
untouched. -/
theorem set_append_singleton {α : Type} (base : List α) (c v : α) :
    (base ++ [c]).set base.length v = base ++ [v] := by
  induction base with
  | nil => rfl
  | cons x xs ih => simp [List.set, ih]

/-- The occurrence bookkeeping only rewrites the copy cell: a store
shaped `base ++ [copy]` keeps its prefix under `removeFromCopy` at the
copy reference. -/
theorem removeFromCopy_shape (st : Store) (base : List (List NamedArgument))
    (c : List NamedArgument) (d : NamedArgument) (hst : st.cells = base ++ [c]) :
    ∃ c', (removeFromCopy st base.length d).cells = base ++ [c'] := by
  rw [removeFromCopy]
  by_cases hm : d ∈ st.get base.length
  · rw [if_pos hm]
    refine ⟨removeFirst d (st.get base.length), ?_⟩
    rw [Store.setCell, hst]
    exact set_append_singleton base c _
  · rw [if_neg hm]
    exact ⟨c, hst⟩

/-- Validation only rewrites the copy cell. -/
theorem validateNamed_shape (nr : Nat) (base : List (List NamedArgument))
    (specified : List (PyStr × List PyStr)) :
    ∀ (st : Store) (c : List NamedArgument), st.cells = base ++ [c] →
      ∃ c', (validateNamed nr base.length specified st).1.cells = base ++ [c'] := by
  induction specified with
  | nil =>
      intro st c hst
      exact ⟨c, hst⟩
  | cons kv rest ih =>
      intro st c hst
      obtain ⟨kn, kvs⟩ := kv
      rcases hf : findArgDef kn (st.get nr) with _ | d
      · simp only [validateNamed, hf]
        exact ⟨c, hst⟩
      · obtain ⟨c2, hc2⟩ := removeFromCopy_shape st base c d hst
        simp only [validateNamed, hf]
        split_ifs with h1 h2
        · exact ⟨c2, hc2⟩
        · exact ⟨c2, hc2⟩
        · exact ih (removeFromCopy st base.length d) c2 hc2

/-- Effective-value assembly only rewrites the copy cell. -/
theorem craftEffective_shape (base : List (List NamedArgument))
    (specified : List (PyStr × List PyStr)) (defs : List NamedArgument) :
    ∀ (st : Store) (sd : Stdin) (eff : List (PyStr × List PyStr))
      (c : List NamedArgument), st.cells = base ++ [c] →
      ∃ c', (craftEffective base.length specified defs st sd eff).1.cells = base ++ [c'] := by
  induction defs with
  | nil =>
      intro st sd eff c hst
      exact ⟨c, hst⟩
  | cons d rest ih =>
      intro st sd eff c hst
      by_cases hcond : d.from_stdin = true ∧ d.max_occurrence = 1
      · rcases hr : readline_if_no_tty sd with ⟨o, sd2⟩
        cases o with
        | some s =>
            obtain ⟨c2, hc2⟩ := removeFromCopy_shape st base c d hst
            simp only [craftEffective, if_pos hcond, hr]
            exact ih _ _ _ c2 hc2
        | none =>
            by_cases htty : sd2.tty = true
            · obtain ⟨c2, hc2⟩ := removeFromCopy_shape st base c d hst
              simp only [craftEffective, if_pos hcond, hr, if_pos htty]
              exact ih _ _ _ c2 hc2
            · simp only [craftEffective, if_pos hcond, hr, if_neg htty]
              exact ih _ _ _ c hst
      · simp only [craftEffective, if_neg hcond]
        exact ih _ _ _ c hst

/-- Dispatching to a selected registration preserves every pre-existing
store cell: the final store is the initial one extended by the scratch
copy. -/
theorem dispatchSelected_shape (reg : Registration) (routes : List (ExnType × RouteHandler))
    (tok : Tokenized) (st : Store) (sd : Stdin) :
    ∃ rest, (dispatchSelected reg routes tok st sd).store.cells = st.cells ++ rest := by
  rw [dispatchSelected]
  simp only [Store.alloc]
  rcases hv : validateNamed reg.namedRef st.cells.length tok.named
      ⟨st.cells ++ [st.get reg.namedRef]⟩ with ⟨st2, o⟩
  have hv2 := validateNamed_shape reg.namedRef st.cells tok.named
    ⟨st.cells ++ [st.get reg.namedRef]⟩ (st.get reg.namedRef) rfl
  rw [hv] at hv2
  obtain ⟨c2, hc2⟩ := hv2
  cases o with
  | some code =>
      simp only [hv]
      exact ⟨[c2], hc2⟩
  | none =>
      simp only [hv]
      obtain ⟨c3, hc3⟩ := craftEffective_shape st.cells tok.named
        (st2.get reg.namedRef) st2 sd [] c2 hc2
      split_ifs
      · exact ⟨[c3], hc3⟩
      · exact ⟨[c3], hc3⟩

/-- What a `CommandProcessor` observes of its own registry through the
store: each registration's positional definitions and the current
contents of its named-definition list object. -/
def registryView (p : CommandProcessor) (st : Store) :
    List (List PositionalArgument × List NamedArgument) :=
  p.cmdline_handlers.map (fun reg => (reg.pos_args, st.get reg.namedRef))

/-- C10: `process` never mutates the registry — every pre-existing store
cell survives unchanged (the final store is the initial one plus at most
one scratch cell, the copy used for occurrence bookkeeping), and when the
processor's registrations point into the store (well-formedness), the
registry they observe after dispatch is identical to the one before, so
repeated calls to `process` observe identical registry state.  The
registration list and exception-route list themselves are values the
dispatcher never rebinds. -/
theorem claim10_registry_frame (p : CommandProcessor) (st : Store) (sd : Stdin)
    (args : List PyStr) :
    (∃ rest, (process p st sd args).store.cells = st.cells ++ rest) ∧
    ((∀ reg ∈ p.cmdline_handlers, reg.namedRef < st.cells.length) →
       registryView p (process p st sd args).store = registryView p st) := by
  have hshape : ∃ rest, (process p st sd args).store.cells = st.cells ++ rest := by
    cases ht : tokenize args with
    | error code =>
        rw [process, ht]
        exact ⟨[], (List.append_nil st.cells).symm⟩
    | ok tok =>
        cases hb : bestFit p.cmdline_handlers args tok.positional.length with
        | none =>
            rw [process, ht]
            simp only [hb]
            exact ⟨[], (List.append_nil st.cells).symm⟩
        | some idx =>
            rw [process, ht]
            simp only [hb]
            exact dispatchSelected_shape (p.cmdline_handlers.getD idx defaultReg)
              p.exception_handlers tok st sd
  refine ⟨hshape, ?_⟩
  intro hwf
  obtain ⟨rest, hrest⟩ := hshape
  rw [registryView, registryView]
  apply List.map_congr_left
  intro reg hreg
  have hlt : reg.namedRef < st.cells.length := hwf reg hreg
  rw [Store.get, Store.get, hrest, List.getD_append _ _ _ _ hlt]

/-- C10 witness: dispatching a full invocation (named argument consumed,
handler run) leaves the registry view unchanged. -/
theorem claim10_witness :
    registryView (procOneNamed 3)
        (process (procOneNamed 3) ⟨[[argNameLower]]⟩ ⟨true, []⟩ [S "--name=v"]).store =
      registryView (procOneNamed 3) ⟨[[argNameLower]]⟩ :=
  (claim10_registry_frame (procOneNamed 3) ⟨[[argNameLower]]⟩ ⟨true, []⟩ [S "--name=v"]).2
    (by decide)

end GpStartup
